import Mathlib

/-!
Verification of the goffkv-consul driver (src/consul.go): a shallow
embedding of the batch-construction and outcome-mapping layer, with
theorems settling the claims about its error handling and metadata.

Modelling conventions:
* Go strings are modelled as Lean `String` (byte-level slicing in
  `detachChild` is modelled on `List Char`; all relevant characters are
  ASCII, where Go byte indices and character indices coincide).
* `goffkv.Version` (uint64) is modelled as `Nat`; no arithmetic in the
  translated code can overflow 64 bits on the inputs considered.
* The external key grammar validator `goffkv.DisassembleKey` is not part
  of this repository; operations take its result (`Except Err (List String)`)
  as a parameter, covering both the success and the early-return error path.
* The network round trip `c.txn.Txn(ops, ...)` is modelled by passing the
  response (`TxnResp`) as a parameter: a Go transport error, a committed
  response with its results, or a failed response with its first error
  (the code only reads `ret.Errors[0]`).
* A Go runtime panic (out-of-range index, close of a closed channel,
  the explicit `panic` in `Commit`) is modelled as an explicit error or
  a dedicated `panicked` outcome, never silently totalised.
-/

/-- Byte slices (`[]byte`) are modelled as lists of naturals. -/
abbrev Bytes := List Nat

/-- goffkv.Version is uint64; modelled as Nat (no overflowing arithmetic occurs). -/
abbrev Version := Nat

/-- The error values the driver can produce, mirroring goffkv's error kinds
plus the distinct outcomes the Go code can take. -/
inductive Err where
  | noEntry
  | entryExists
  | txnFailed (idx : Nat)
  | unexpected (what : String) (opIndex : Nat)
  | transport (msg : String)
  | malformedKey (msg : String)
  | panicked (msg : String)
deriving Repr, DecidableEq

/-- The Consul KV transaction verbs used by src/consul.go. -/
inductive KVVerb where
  | get
  | set
  | cas
  | lock
  | delete
  | deleteCAS
  | deleteTree
  | checkNotExists
  | checkIndex
  | getTree
deriving Repr, DecidableEq

/-- One `consulapi.KVTxnOp`: verb, key, value, index and session
(unused fields are zero values, as in Go). -/
structure KVTxnOp where
  verb : KVVerb
  key : String
  value : Bytes
  index : Version
  session : String
deriving Repr, DecidableEq

/-- One entry of `ret.Results`: the fields src/consul.go reads. -/
structure KVResult where
  key : String
  modifyIndex : Version
deriving Repr, DecidableEq

/-- Outcome of the `c.txn.Txn` round trip as seen by the Go code:
a transport error (`err != nil`), a committed batch with its results
(`ok == true`), or a failed batch with its first error
(`ok == false`; the code reads only `ret.Errors[0]`). -/
inductive TxnResp where
  | transportErr (msg : String)
  | committed (results : List KVResult)
  | failed (firstErrOpIndex : Nat) (what : String)
deriving Repr, DecidableEq

/-- `assemblePath` from src/consul.go: mount segments followed by key
segments, joined by a slash. -/
def assemblePath (mountSegments segments : List String) : String :=
  String.intercalate ("/") (mountSegments ++ segments)

/-- `maybeGetParent` from src/consul.go: one KVGet of the parent path when
the key has at least two segments, nothing otherwise. -/
def maybeGetParent (mountSegments segments : List String) : List KVTxnOp :=
  if segments.length > 1 then
    [⟨.get, assemblePath mountSegments (segments.take (segments.length - 1)), [], 0, ""⟩]
  else []

/-- Go `results[len(results)-1].KV.ModifyIndex`: the last result's modify
index; indexing an empty slice is a runtime panic. -/
def lastModifyIndex (results : List KVResult) : Except Err Version :=
  match results.getLast? with
  | some r => .ok r.modifyIndex
  | none => .error (.panicked ("runtime error: index out of range"))

/-- The primitive batch built by `Create` (src/consul.go lines 102-132):
optional parent get, check-not-exists on the key, then KVLock (leased)
or KVSet. -/
def createOps (mountSegments segments : List String) (value : Bytes)
    (lease : Bool) (sessionId : String) : List KVTxnOp :=
  maybeGetParent mountSegments segments
    ++ [⟨.checkNotExists, assemblePath mountSegments segments, [], 0, ""⟩]
    ++ [if lease then ⟨.lock, assemblePath mountSegments segments, value, 0, sessionId⟩
        else ⟨.set, assemblePath mountSegments segments, value, 0, ""⟩]

/-- The tail of `Create` after the round trip (src/consul.go lines 134-157):
on commit, the last result's modify index; on failure, the error chosen by
comparing the first failing op index with the number of parent-check ops. -/
def createFinish (nParentOps : Nat) (resp : TxnResp) : Except Err Version :=
  match resp with
  | .transportErr m => .error (.transport m)
  | .committed results => lastModifyIndex results
  | .failed opIdx what =>
    if opIdx < nParentOps then .error .noEntry
    else if opIdx = nParentOps then .error .entryExists
    else .error (.unexpected what opIdx)

/-- `Create` from src/consul.go: key disassembly, optional session
acquisition (only when `lease`), then the round trip and `createFinish`. -/
def CreateRun (mountSegments : List String) (disasm : Except Err (List String))
    (value : Bytes) (lease : Bool) (sess : Except Err String)
    (resp : TxnResp) : Except Err Version :=
  match disasm with
  | .error e => .error e
  | .ok segments =>
    if lease then
      match sess with
      | .error e => .error e
      | .ok _ => createFinish (maybeGetParent mountSegments segments).length resp
    else createFinish (maybeGetParent mountSegments segments).length resp

/-- The primitive batch built by `Set` (src/consul.go lines 166-173). -/
def setOps (mountSegments segments : List String) (value : Bytes) : List KVTxnOp :=
  maybeGetParent mountSegments segments
    ++ [⟨.set, assemblePath mountSegments segments, value, 0, ""⟩]

/-- `Set` from src/consul.go: on commit, the last result's modify index;
on any non-committed batch, `OpErrNoEntry` (the failing slot is not
inspected). -/
def SetRun (mountSegments : List String) (disasm : Except Err (List String))
    (value : Bytes) (resp : TxnResp) : Except Err Version :=
  match disasm with
  | .error e => .error e
  | .ok _segments =>
    match resp with
    | .transportErr m => .error (.transport m)
    | .committed results => lastModifyIndex results
    | .failed _ _ => .error .noEntry

/-- The primitive batch built by `Cas` when `ver != 0`
(src/consul.go lines 206-221): a get of the path, then a KVCAS. -/
def casOps (mountSegments segments : List String) (value : Bytes)
    (ver : Version) : List KVTxnOp :=
  [⟨.get, assemblePath mountSegments segments, [], 0, ""⟩,
   ⟨.cas, assemblePath mountSegments segments, value, ver, ""⟩]

/-- `Cas` from src/consul.go: `ver == 0` delegates to `Create` with
`lease = false`, turning `OpErrEntryExists` into a result of 0; otherwise
runs the get+CAS batch, mapping a failure at slot 0 to `OpErrNoEntry` and
any other failure to a result of 0 with no error. -/
def CasRun (mountSegments : List String) (disasm : Except Err (List String))
    (value : Bytes) (ver : Version) (sess : Except Err String)
    (resp : TxnResp) : Except Err Version :=
  if ver = 0 then
    match CreateRun mountSegments disasm value false sess resp with
    | .ok v => .ok v
    | .error .entryExists => .ok 0
    | .error e => .error e
  else
    match disasm with
    | .error e => .error e
    | .ok _segments =>
      match resp with
      | .transportErr m => .error (.transport m)
      | .committed results => lastModifyIndex results
      | .failed opIdx _ => if opIdx = 0 then .error .noEntry else .ok 0

/-- The primitive batch built by `Erase` (src/consul.go lines 247-279):
a get of the path, then KVDelete (`ver == 0`) or KVDeleteCAS, then a
KVDeleteTree of the path with a trailing slash. -/
def eraseOps (mountSegments segments : List String) (ver : Version) : List KVTxnOp :=
  [⟨.get, assemblePath mountSegments segments, [], 0, ""⟩,
   (if ver = 0 then ⟨.delete, assemblePath mountSegments segments, [], 0, ""⟩
    else ⟨.deleteCAS, assemblePath mountSegments segments, [], ver, ""⟩),
   ⟨.deleteTree, assemblePath mountSegments segments ++ "/", [], 0, ""⟩]

/-- `Erase` from src/consul.go: a failure at slot 0 is `OpErrNoEntry`;
any other failure, and a committed batch, return no error. -/
def EraseRun (mountSegments : List String) (disasm : Except Err (List String))
    (ver : Version) (resp : TxnResp) : Except Err Unit :=
  match disasm with
  | .error e => .error e
  | .ok _segments =>
    match resp with
    | .transportErr m => .error (.transport m)
    | .committed _ => .ok ()
    | .failed opIdx _ => if opIdx = 0 then .error .noEntry else .ok ()

/-- One KV pair as returned by `c.kv.Get`: the fields the code reads. -/
structure KVPair where
  modifyIndex : Version
  value : Bytes
deriving Repr, DecidableEq

/-- The data captured by the watch closures the driver returns: the frozen
path and the wait index passed to the blocking re-read. -/
structure WatchHandle where
  path : String
  waitIndex : Version
deriving Repr, DecidableEq

/-- `Exists` from src/consul.go: a `kv.Get` returning nil yields
version 0, no watch handle and no error (even when a watch was requested);
otherwise the modify index and, when requested, a watch on the frozen path
at that index. -/
def ExistsRun (mountSegments : List String) (disasm : Except Err (List String))
    (watch : Bool) (getResp : Except String (Option KVPair)) :
    Except Err (Version × Option WatchHandle) :=
  match disasm with
  | .error e => .error e
  | .ok segments =>
    match getResp with
    | .error m => .error (.transport m)
    | .ok none => .ok (0, none)
    | .ok (some kv) =>
      .ok (kv.modifyIndex,
        if watch then some ⟨assemblePath mountSegments segments, kv.modifyIndex⟩ else none)

/-- `Get` from src/consul.go: a `kv.Get` returning nil yields
`OpErrNoEntry`; otherwise the modify index, the value and, when requested,
a watch on the frozen path at that index. -/
def GetRun (mountSegments : List String) (disasm : Except Err (List String))
    (watch : Bool) (getResp : Except String (Option KVPair)) :
    Except Err (Version × Bytes × Option WatchHandle) :=
  match disasm with
  | .error e => .error e
  | .ok segments =>
    match getResp with
    | .error m => .error (.transport m)
    | .ok none => .error .noEntry
    | .ok (some kv) =>
      .ok (kv.modifyIndex, kv.value,
        if watch then some ⟨assemblePath mountSegments segments, kv.modifyIndex⟩ else none)

/-! ## Session lifecycle and Close -/

/-- State of a Go channel as far as `close` is concerned. -/
inductive ChanState where
  | opened
  | closed
deriving Repr, DecidableEq

/-- Go `close(ch)`: closing an open channel succeeds; closing an
already-closed channel is a runtime panic. -/
def goCloseChan : ChanState → Except String ChanState
  | .opened => .ok .closed
  | .closed => .error ("close of closed channel")

/-- The session-related fields of `consulClient`: the cached session id
(empty string when absent) and `sessionRenewDoneCh` (nil until a session
is created). -/
structure SessState where
  sessionId : String
  renewDoneCh : Option ChanState
deriving Repr, DecidableEq

/-- The freshly constructed client state (src/consul.go `New`):
empty session id, nil renewal channel. -/
def freshSessState : SessState := ⟨"", none⟩

/-- `getOrCreateSessionId` from src/consul.go: returns the cached id when
present; otherwise performs `session.Create` (its outcome is the
`createResp` parameter), and on success allocates the renewal channel,
starts the renewal goroutine and caches the id. On failure nothing is
cached. Returns the result paired with the updated state. -/
def getOrCreateSessionIdRun (s : SessState) (createResp : Except String String) :
    Except String String × SessState :=
  if s.sessionId ≠ "" then (.ok s.sessionId, s)
  else
    match createResp with
    | .error e => (.error e, s)
    | .ok sid => (.ok sid, ⟨sid, some .opened⟩)

/-- `Close` from src/consul.go: closes `sessionRenewDoneCh` when it is
non-nil; the field is never reset to nil. An error is a Go runtime panic. -/
def CloseRun (s : SessState) : Except String SessState :=
  match s.renewDoneCh with
  | none => .ok s
  | some ch =>
    match goCloseChan ch with
    | .ok ch2 => .ok ⟨s.sessionId, some ch2⟩
    | .error m => .error m

/-! ## detachChild (Go `strings.LastIndexByte` and slicing on byte strings,
modelled on lists of characters; all characters involved are ASCII) -/

/-- Go `strings.LastIndexByte`: the index of the last occurrence of `c`,
or -1 when absent. -/
def lastIndexOfChar (s : List Char) (c : Char) : Int :=
  match s with
  | [] => -1
  | a :: rest =>
    let r := lastIndexOfChar rest c
    if 0 ≤ r then r + 1
    else if a = c then 0
    else -1

/-- `detachChild` from src/consul.go: empty result when the last slash of
`path` sits at or past `nPfx` (the source's `nPrefix`); a slash-prepended
path when `nGlobalPfx` (the source's `nGlobalPrefix`) is 0; otherwise the
slice `path[nGlobalPfx:]`, whose out-of-range case is a Go runtime panic. -/
def detachChild (path : List Char) (nPfx nGlobalPfx : Nat) : Except String (List Char) :=
  if (nPfx : Int) ≤ lastIndexOfChar path '/' then .ok []
  else if nGlobalPfx = 0 then .ok ('/' :: path)
  else if nGlobalPfx ≤ path.length then .ok (path.drop nGlobalPfx)
  else .error ("runtime error: slice bounds out of range")

/-! ## Commit: batch builder, boundary mapping, outcome mapping -/

/-- The result-kind tags from src/consul.go (`rkCreate`, `rkSet`, `rkAux`). -/
inductive ResultKind where
  | rkCreate
  | rkSet
  | rkAux
deriving Repr, DecidableEq

/-- One entry of `goffkv.Txn.Checks`, its key already disassembled into
segments (key disassembly is the external validator; a malformed key makes
`Commit` return its error before any batch is built). -/
structure TxnCheck where
  segments : List String
  ver : Version
deriving Repr, DecidableEq

/-- The three user-level operation kinds of `goffkv.Txn.Ops`. -/
inductive UserOpKind where
  | create
  | set
  | erase
deriving Repr, DecidableEq

/-- One entry of `goffkv.Txn.Ops`, its key already disassembled. -/
structure TxnUserOp where
  what : UserOpKind
  segments : List String
  value : Bytes
  lease : Bool
deriving Repr, DecidableEq

/-- A `goffkv.Txn`: ordered checks then ordered operations. -/
structure Txn where
  checks : List TxnCheck
  ops : List TxnUserOp
deriving Repr, DecidableEq

/-- The three parallel arrays `Commit` accumulates. -/
structure BuildState where
  ops : List KVTxnOp
  boundaries : List Nat
  rks : List ResultKind
deriving Repr, DecidableEq

/-- The primitive op built for one check (src/consul.go lines 459-474):
a get when the expected version is 0, a check-index otherwise. -/
def checkOp (mountSegments : List String) (ch : TxnCheck) : KVTxnOp :=
  if ch.ver = 0 then ⟨.get, assemblePath mountSegments ch.segments, [], 0, ""⟩
  else ⟨.checkIndex, assemblePath mountSegments ch.segments, [], ch.ver, ""⟩

/-- Processing one check in `Commit`'s first loop: append the op, record
the boundary (`len(ops) - 1`), append one `rkAux`. -/
def buildCheckStep (mountSegments : List String) (st : BuildState) (ch : TxnCheck) :
    BuildState :=
  let ops2 := st.ops ++ [checkOp mountSegments ch]
  ⟨ops2, st.boundaries ++ [ops2.length - 1], st.rks ++ [.rkAux]⟩

/-- The primitive ops and result-kind entries appended for one user-level
operation in `Commit`'s second loop (src/consul.go lines 486-568). Note
that `KVCheckNotExists`, `KVDelete` and `KVDeleteTree` get no result-kind
entry (the source comments: they do not produce any results). Session
acquisition for a leased create is modelled by the ambient `sessionId`
(its failure aborts `Commit` before the batch is submitted). -/
def userOpPrims (mountSegments : List String) (sessionId : String) (op : TxnUserOp) :
    List KVTxnOp × List ResultKind :=
  match op.what with
  | .create =>
    let parentOps := maybeGetParent mountSegments op.segments
    (parentOps
       ++ [⟨.checkNotExists, assemblePath mountSegments op.segments, [], 0, ""⟩]
       ++ [if op.lease then ⟨.lock, assemblePath mountSegments op.segments, op.value, 0, sessionId⟩
           else ⟨.set, assemblePath mountSegments op.segments, op.value, 0, ""⟩],
     parentOps.map (fun _ => .rkAux) ++ [.rkCreate])
  | .set =>
    ([⟨.get, assemblePath mountSegments op.segments, [], 0, ""⟩,
      ⟨.set, assemblePath mountSegments op.segments, op.value, 0, ""⟩],
     [.rkAux, .rkSet])
  | .erase =>
    ([⟨.get, assemblePath mountSegments op.segments, [], 0, ""⟩,
      ⟨.delete, assemblePath mountSegments op.segments, [], 0, ""⟩,
      ⟨.deleteTree, assemblePath mountSegments op.segments ++ "/", [], 0, ""⟩],
     [.rkAux])

/-- Processing one user-level operation in `Commit`'s second loop: append
its primitive ops and result kinds, then record the boundary. -/
def buildUserOpStep (mountSegments : List String) (sessionId : String)
    (st : BuildState) (op : TxnUserOp) : BuildState :=
  let pr := userOpPrims mountSegments sessionId op
  let ops2 := st.ops ++ pr.1
  ⟨ops2, st.boundaries ++ [ops2.length - 1], st.rks ++ pr.2⟩

/-- The batch builder of `Commit` (src/consul.go lines 449-571): checks in
order, then operations in order, starting from three empty arrays. -/
def buildTxn (mountSegments : List String) (sessionId : String) (txn : Txn) :
    BuildState :=
  txn.ops.foldl (buildUserOpStep mountSegments sessionId)
    (txn.checks.foldl (buildCheckStep mountSegments) ⟨[], [], []⟩)

/-- `toUserOpIndex`'s loop with the running position made explicit. -/
def toUserOpIndexAux (boundaries : List Nat) (op : Nat) (i : Nat) : Int :=
  match boundaries with
  | [] => -1
  | x :: rest => if x ≥ op then (i : Int) else toUserOpIndexAux rest op (i + 1)

/-- `toUserOpIndex` from src/consul.go: the position of the first boundary
entry that is at least `op`, or -1 when there is none. -/
def toUserOpIndex (boundaries : List Nat) (op : Nat) : Int :=
  toUserOpIndexAux boundaries op 0

/-- Modelled from the spec: scan `boundaries` for the first entry whose
value is at least the failing primitive index, returning its position. -/
def specFirstBoundaryAtOrAfter (boundaries : List Nat) (failIdx : Nat) : Option Nat :=
  match boundaries with
  | [] => none
  | x :: rest =>
    if failIdx ≤ x then some 0
    else (specFirstBoundaryAtOrAfter rest failIdx).map (· + 1)

/-- Go's loop pairing `ret.Results[i]` with `rks[i]` (src/consul.go lines
581-589): create- and set-tagged slots emit a result, aux slots are
skipped; running out of `rks` entries while results remain is a runtime
panic (out-of-range index). -/
def mapResults (rks : List ResultKind) (results : List KVResult) :
    Except String (List (UserOpKind × Version)) :=
  match results, rks with
  | [], _ => .ok []
  | r :: rs, k :: ks =>
    (mapResults ks rs).map (fun rest =>
      match k with
      | .rkCreate => (.create, r.modifyIndex) :: rest
      | .rkSet => (.set, r.modifyIndex) :: rest
      | .rkAux => rest)
  | _ :: _, [] => .error ("runtime error: index out of range")

/-- The three ways `Commit` can end. -/
inductive CommitOutcome where
  | ok (results : List (UserOpKind × Version))
  | err (e : Err)
  | panicked (msg : String)
deriving Repr, DecidableEq

/-- `Commit` from src/consul.go after the batch is built: transport errors
propagate; a committed batch maps results through the result kinds; a
failed batch maps the first failing op index through `toUserOpIndex`,
producing `TxnError{userIndex}` or, when no boundary covers the index,
the explicit `panic("txn failed on non-existing op")`. -/
def CommitRun (mountSegments : List String) (sessionId : String) (txn : Txn)
    (resp : TxnResp) : CommitOutcome :=
  let st := buildTxn mountSegments sessionId txn
  match resp with
  | .transportErr m => .err (.transport m)
  | .committed results =>
    match mapResults st.rks results with
    | .ok answer => .ok answer
    | .error m => .panicked m
  | .failed opIdx _what =>
    let userIndex := toUserOpIndex st.boundaries opIdx
    if userIndex < 0 then .panicked ("txn failed on non-existing op")
    else .err (.txnFailed userIndex.toNat)

/-- Whether a verb contributes an entry to `ret.Results`, as encoded by
the code's own result-kind bookkeeping (the source appends a result kind
for every op except `KVCheckNotExists`, `KVDelete` and `KVDeleteTree`,
which it comments as producing no results). -/
def producesResult (v : KVVerb) : Bool :=
  match v with
  | .checkNotExists => false
  | .delete => false
  | .deleteTree => false
  | _ => true

/-- The boundary values the builder should record: for item primitive
counts `counts` starting at batch offset `acc`, the cumulative last
primitive index of each item. -/
def boundarySpec (counts : List Nat) (acc : Nat) : List Nat :=
  match counts with
  | [] => []
  | c :: rest => (acc + c - 1) :: boundarySpec rest (acc + c)

/-! ## Helper lemmas -/

lemma toUserOpIndexAux_spec (boundaries : List Nat) (op : Nat) :
    ∀ i : Nat, toUserOpIndexAux boundaries op i =
      (match specFirstBoundaryAtOrAfter boundaries op with
       | some u => ((i + u : Nat) : Int)
       | none => -1) := by
  induction boundaries with
  | nil => intro i; simp [toUserOpIndexAux, specFirstBoundaryAtOrAfter]
  | cons x rest ih =>
    intro i
    by_cases h : op ≤ x
    · simp [toUserOpIndexAux, specFirstBoundaryAtOrAfter, h]
    · simp only [toUserOpIndexAux, specFirstBoundaryAtOrAfter, if_neg h,
        if_neg (by omega : ¬ x ≥ op), ih (i + 1)]
      cases hrest : specFirstBoundaryAtOrAfter rest op with
      | none => simp
      | some u =>
        simp only [Option.map_some']
        norm_cast
        omega

/-- The code's `toUserOpIndex` computes exactly the spec's scan: the
position of the first boundary at or after the failing index, with -1
standing for "none". -/
lemma toUserOpIndex_spec (boundaries : List Nat) (op : Nat) :
    toUserOpIndex boundaries op =
      (match specFirstBoundaryAtOrAfter boundaries op with
       | some u => (u : Int)
       | none => -1) := by
  have h := toUserOpIndexAux_spec boundaries op 0
  simpa [toUserOpIndex] using h

lemma lastIndexOfChar_nonneg_iff (s : List Char) (c : Char) :
    0 ≤ lastIndexOfChar s c ↔ c ∈ s := by
  induction s with
  | nil => simp [lastIndexOfChar]
  | cons a rest ih =>
    simp only [lastIndexOfChar, List.mem_cons]
    by_cases hr : 0 ≤ lastIndexOfChar rest c
    · simp only [if_pos hr]
      constructor
      · intro _; exact Or.inr (ih.mp hr)
      · intro _; omega
    · simp only [if_neg hr]
      by_cases hac : a = c
      · simp [hac]
      · simp only [if_neg hac]
        constructor
        · intro h; omega
        · rintro (h | h)
          · exact absurd h.symm hac
          · exact absurd (ih.mpr h) hr

/-- The guard of `detachChild`, `lastSlash >= nPfx`, holds exactly when
the character occurs at or after position `nPfx`. -/
lemma lastIndexOfChar_ge_iff (s : List Char) (c : Char) :
    ∀ n : Nat, (n : Int) ≤ lastIndexOfChar s c ↔ c ∈ s.drop n := by
  induction s with
  | nil =>
    intro n
    simp only [lastIndexOfChar, List.drop_nil, List.not_mem_nil, iff_false]
    omega
  | cons a rest ih =>
    intro n
    cases n with
    | zero =>
      simpa using lastIndexOfChar_nonneg_iff (a :: rest) c
    | succ m =>
      simp only [List.drop_succ_cons, ← ih m]
      simp only [lastIndexOfChar]
      by_cases hr : 0 ≤ lastIndexOfChar rest c
      · simp only [if_pos hr]; omega
      · simp only [if_neg hr]
        have : ¬ ((m : Int) ≤ lastIndexOfChar rest c) := by omega
        by_cases hac : a = c
        · simp only [if_pos hac]
          constructor
          · intro h; omega
          · intro h; omega
        · simp only [if_neg hac]
          constructor
          · intro h; omega
          · intro h; omega

lemma checkOp_produces (p : List String) (ch : TxnCheck) :
    producesResult (checkOp p ch).verb = true := by
  unfold checkOp
  split <;> rfl

lemma userOpPrims_rks_len (p : List String) (sid : String) (op : TxnUserOp) :
    (userOpPrims p sid op).2.length =
      ((userOpPrims p sid op).1.filter (fun o => producesResult o.verb)).length := by
  rcases op with ⟨what, segs, v, lease⟩
  cases what <;> cases lease <;> by_cases h : segs.length > 1 <;>
    simp [userOpPrims, maybeGetParent, producesResult, h]

lemma boundarySpec_length (counts : List Nat) :
    ∀ acc : Nat, (boundarySpec counts acc).length = counts.length := by
  induction counts with
  | nil => intro acc; simp [boundarySpec]
  | cons c rest ih => intro acc; simp [boundarySpec, ih]

lemma boundarySpec_append (xs ys : List Nat) :
    ∀ acc : Nat, boundarySpec (xs ++ ys) acc
      = boundarySpec xs acc ++ boundarySpec ys (acc + xs.sum) := by
  induction xs with
  | nil => intro acc; simp [boundarySpec]
  | cons c rest ih =>
    intro acc
    have h : boundarySpec ((c :: rest) ++ ys) acc
        = (acc + c - 1) :: boundarySpec (rest ++ ys) (acc + c) := rfl
    rw [h, ih (acc + c), Nat.add_assoc]
    rfl

lemma sum_map_one {α : Type} (l : List α) : (l.map (fun _ => (1 : Nat))).sum = l.length := by
  induction l with
  | nil => simp
  | cons a rest ih => simp [ih, Nat.add_comm]

lemma buildCheck_fold (p : List String) (checks : List TxnCheck) :
    ∀ st : BuildState,
      (checks.foldl (buildCheckStep p) st).ops.length = st.ops.length + checks.length ∧
      (checks.foldl (buildCheckStep p) st).boundaries
        = st.boundaries ++ boundarySpec (checks.map (fun _ => 1)) st.ops.length ∧
      (checks.foldl (buildCheckStep p) st).rks.length = st.rks.length + checks.length ∧
      ((checks.foldl (buildCheckStep p) st).ops.filter (fun o => producesResult o.verb)).length
        = (st.ops.filter (fun o => producesResult o.verb)).length + checks.length := by
  induction checks with
  | nil => intro st; simp [boundarySpec]
  | cons ch rest ih =>
    intro st
    obtain ⟨ih1, ih2, ih3, ih4⟩ := ih (buildCheckStep p st ch)
    refine ⟨?_, ?_, ?_, ?_⟩
    · rw [List.foldl_cons, ih1]
      simp [buildCheckStep]
      omega
    · rw [List.foldl_cons, ih2]
      simp only [buildCheckStep, List.map_cons, boundarySpec, List.length_append,
        List.length_cons, List.length_nil, List.append_assoc, List.singleton_append]
    · rw [List.foldl_cons, ih3]
      simp [buildCheckStep]
      omega
    · rw [List.foldl_cons, ih4]
      simp [buildCheckStep, List.filter_append, checkOp_produces]
      omega

lemma buildUserOp_fold (p : List String) (sid : String) (userOps : List TxnUserOp) :
    ∀ st : BuildState,
      (userOps.foldl (buildUserOpStep p sid) st).ops.length
        = st.ops.length + (userOps.map (fun op => (userOpPrims p sid op).1.length)).sum ∧
      (userOps.foldl (buildUserOpStep p sid) st).boundaries
        = st.boundaries
            ++ boundarySpec (userOps.map (fun op => (userOpPrims p sid op).1.length))
                 st.ops.length ∧
      (userOps.foldl (buildUserOpStep p sid) st).rks.length
        = st.rks.length + (userOps.map (fun op => (userOpPrims p sid op).2.length)).sum ∧
      ((userOps.foldl (buildUserOpStep p sid) st).ops.filter
          (fun o => producesResult o.verb)).length
        = (st.ops.filter (fun o => producesResult o.verb)).length
            + (userOps.map (fun op => (userOpPrims p sid op).2.length)).sum := by
  induction userOps with
  | nil => intro st; simp [boundarySpec]
  | cons op rest ih =>
    intro st
    obtain ⟨ih1, ih2, ih3, ih4⟩ := ih (buildUserOpStep p sid st op)
    refine ⟨?_, ?_, ?_, ?_⟩
    · rw [List.foldl_cons, ih1]
      simp [buildUserOpStep]
      omega
    · rw [List.foldl_cons, ih2]
      simp only [buildUserOpStep, List.map_cons, boundarySpec, List.length_append,
        List.append_assoc, List.singleton_append]
    · rw [List.foldl_cons, ih3]
      simp [buildUserOpStep]
      omega
    · rw [List.foldl_cons, ih4]
      simp only [buildUserOpStep, List.filter_append, List.length_append, List.map_cons,
        List.sum_cons, ← userOpPrims_rks_len p sid op]
      omega

/-- The three facts about the arrays `Commit` builds, shared by the
boundary-mapping and metadata theorems: boundaries record, per user-level
item (checks then ops), the cumulative last primitive index; there is one
boundary entry per item; and the result-kind array has exactly one entry
per result-producing batch slot. -/
lemma buildTxn_spec (p : List String) (sid : String) (txn : Txn) :
    (buildTxn p sid txn).boundaries
      = boundarySpec (txn.checks.map (fun _ => 1)
          ++ txn.ops.map (fun op => (userOpPrims p sid op).1.length)) 0 ∧
    (buildTxn p sid txn).boundaries.length = txn.checks.length + txn.ops.length ∧
    (buildTxn p sid txn).rks.length
      = ((buildTxn p sid txn).ops.filter (fun o => producesResult o.verb)).length := by
  obtain ⟨c1, c2, c3, c4⟩ := buildCheck_fold p txn.checks ⟨[], [], []⟩
  obtain ⟨o1, o2, o3, o4⟩ :=
    buildUserOp_fold p sid txn.ops (txn.checks.foldl (buildCheckStep p) ⟨[], [], []⟩)
  have hb : (buildTxn p sid txn).boundaries
      = boundarySpec (txn.checks.map (fun _ => 1)
          ++ txn.ops.map (fun op => (userOpPrims p sid op).1.length)) 0 := by
    rw [buildTxn, o2, c2, c1]
    rw [boundarySpec_append]
    simp [sum_map_one]
  refine ⟨hb, ?_, ?_⟩
  · rw [hb, boundarySpec_length]
    simp
  · rw [buildTxn, o3, c3, o4, c4]
    simp


/-! ## Claim theorems -/

/-- C1: when a Txn batch fails (no transport error, not committed),
`Commit` maps the first failing primitive slot index to the user-level
item index by scanning the boundaries for the first entry at or after the
failing index (counted zero-based across checks then ops, boundaries
having one entry per item) and returns `TxnError` at that position; when
no boundary entry covers the failing index it panics rather than
returning a recoverable error. -/
theorem commit_failed_maps_first_boundary (p : List String) (sid : String)
    (txn : Txn) (opIdx : Nat) (what : String) :
    CommitRun p sid txn (.failed opIdx what) =
      (match specFirstBoundaryAtOrAfter (buildTxn p sid txn).boundaries opIdx with
       | some u => .err (.txnFailed u)
       | none => .panicked ("txn failed on non-existing op")) ∧
    (buildTxn p sid txn).boundaries.length = txn.checks.length + txn.ops.length := by
  constructor
  · simp only [CommitRun]
    rw [toUserOpIndex_spec]
    cases h : specFirstBoundaryAtOrAfter (buildTxn p sid txn).boundaries opIdx with
    | none => simp
    | some u =>
      have hn : ¬ ((u : Int) < 0) := by omega
      simp [hn]
  · exact (buildTxn_spec p sid txn).2.1

/-- C2: when a Create batch fails (no transport error, not committed),
the error is chosen by the failing slot: before the parent-check count it
is NoEntry, at the parent-check count (the check-not-exists slot, which
the built batch indeed holds at that index) it is EntryExists, and past
it the failure surfaces as an Unexpected error instead of being
swallowed. -/
theorem create_failed_error_mapping (p segs : List String) (v : Bytes) (lease : Bool)
    (sid : String) (idx : Nat) (what : String) :
    ((createOps p segs v lease sid)[(maybeGetParent p segs).length]?
        = some ⟨.checkNotExists, assemblePath p segs, [], 0, ""⟩) ∧
    (idx < (maybeGetParent p segs).length →
      CreateRun p (.ok segs) v lease (.ok sid) (.failed idx what) = .error .noEntry) ∧
    (idx = (maybeGetParent p segs).length →
      CreateRun p (.ok segs) v lease (.ok sid) (.failed idx what) = .error .entryExists) ∧
    ((maybeGetParent p segs).length < idx →
      CreateRun p (.ok segs) v lease (.ok sid) (.failed idx what)
        = .error (.unexpected what idx)) := by
  refine ⟨?_, ?_, ?_, ?_⟩
  · simp only [createOps, List.append_assoc]
    rw [List.getElem?_append_right (Nat.le_refl (maybeGetParent p segs).length)]
    simp
  · intro h
    cases lease <;> simp [CreateRun, createFinish, h]
  · intro h
    cases lease <;> simp [CreateRun, createFinish, h]
  · intro h
    have h1 : ¬ idx < (maybeGetParent p segs).length := by omega
    have h2 : ¬ idx = (maybeGetParent p segs).length := by omega
    cases lease <;> simp [CreateRun, createFinish, h1, h2]

/-- C2 witness: a two-segment key has one parent-check op; failing at
slot 0 yields NoEntry, at slot 1 EntryExists, at slot 2 Unexpected. -/
theorem create_failed_error_mapping_witness :
    (0 < (maybeGetParent ["m"] ["a", "b"]).length ∧
      CreateRun ["m"] (.ok ["a", "b"]) [] false (.ok ("s")) (.failed 0 ("w"))
        = .error .noEntry) ∧
    CreateRun ["m"] (.ok ["a", "b"]) [] false (.ok ("s")) (.failed 2 ("w"))
      = .error (.unexpected ("w") 2) :=
  ⟨⟨by decide,
    (create_failed_error_mapping ["m"] ["a", "b"] [] false ("s") 0 ("w")).2.1 (by decide)⟩,
   (create_failed_error_mapping ["m"] ["a", "b"] [] false ("s") 2 ("w")).2.2.2 (by decide)⟩

/-- C3: for Cas with a nonzero expected version, the batch is exactly a
get of the path followed by a compare-and-swap at that version; a failure
at slot 0 (the get) is NoEntry, a failure at slot 1 (the CAS) is version
0 with no error. -/
theorem cas_nonzero_batch_and_failure (p segs : List String) (v : Bytes) (ver : Version)
    (sess : Except Err String) (what : String) (hver : ver ≠ 0) :
    casOps p segs v ver =
      [⟨.get, assemblePath p segs, [], 0, ""⟩,
       ⟨.cas, assemblePath p segs, v, ver, ""⟩] ∧
    CasRun p (.ok segs) v ver sess (.failed 0 what) = .error .noEntry ∧
    CasRun p (.ok segs) v ver sess (.failed 1 what) = .ok 0 := by
  refine ⟨rfl, ?_, ?_⟩ <;> simp [CasRun, hver]

/-- C3 witness: at expected version 5, a failure at the CAS slot returns
version 0 with no error, a failure at the get slot returns NoEntry. -/
theorem cas_nonzero_batch_and_failure_witness :
    CasRun [] (.ok ["k"]) [] 5 (.ok ("")) (.failed 1 ("w")) = .ok 0 ∧
    CasRun [] (.ok ["k"]) [] 5 (.ok ("")) (.failed 0 ("w")) = .error .noEntry :=
  ⟨(cas_nonzero_batch_and_failure [] ["k"] [] 5 (.ok ("")) ("w") (by decide)).2.2,
   (cas_nonzero_batch_and_failure [] ["k"] [] 5 (.ok ("")) ("w") (by decide)).2.1⟩

/-- C4: Cas with expected version 0 delegates to Create with no lease:
a Create success propagates its version, an EntryExists outcome becomes
version 0 with no error, and any other Create error (missing parent,
malformed key, transport) propagates unchanged. -/
theorem cas_zero_delegates_to_create (p : List String) (disasm : Except Err (List String))
    (v : Bytes) (sess : Except Err String) (resp : TxnResp) :
    (∀ ver : Version, CreateRun p disasm v false sess resp = .ok ver →
      CasRun p disasm v 0 sess resp = .ok ver) ∧
    (CreateRun p disasm v false sess resp = .error .entryExists →
      CasRun p disasm v 0 sess resp = .ok 0) ∧
    (∀ e : Err, e ≠ .entryExists → CreateRun p disasm v false sess resp = .error e →
      CasRun p disasm v 0 sess resp = .error e) := by
  refine ⟨?_, ?_, ?_⟩
  · intro ver h
    simp [CasRun, h]
  · intro h
    simp [CasRun, h]
  · intro e he h
    simp only [CasRun, if_pos rfl, h]
    cases e <;> simp_all

/-- C4 witness: a malformed key makes Create fail with that error and Cas
with version 0 propagates it unchanged. -/
theorem cas_zero_delegates_to_create_witness :
    CasRun [] (.error (.malformedKey ("bad"))) [] 0 (.ok ("")) (.committed [])
      = .error (.malformedKey ("bad")) :=
  (cas_zero_delegates_to_create [] (.error (.malformedKey ("bad"))) [] (.ok (""))
      (.committed [])).2.2 (.malformedKey ("bad")) (by decide) rfl

/-- C5: the Erase batch is exactly a get of the path, then a delete
(unconditional at version 0, by-version otherwise), then a delete-subtree
of the path with a trailing slash; a failure at slot 0 is NoEntry and a
failure at any later slot is swallowed (no error). -/
theorem erase_batch_and_failure (p segs : List String) (ver : Version) (what : String) :
    eraseOps p segs ver =
      [⟨.get, assemblePath p segs, [], 0, ""⟩,
       (if ver = 0 then ⟨.delete, assemblePath p segs, [], 0, ""⟩
        else ⟨.deleteCAS, assemblePath p segs, [], ver, ""⟩),
       ⟨.deleteTree, assemblePath p segs ++ "/", [], 0, ""⟩] ∧
    EraseRun p (.ok segs) ver (.failed 0 what) = .error .noEntry ∧
    (∀ idx : Nat, idx ≠ 0 → EraseRun p (.ok segs) ver (.failed idx what) = .ok ()) := by
  refine ⟨rfl, by simp [EraseRun], ?_⟩
  intro idx h
  simp [EraseRun, h]

/-- C5 witness: erasing a key at version 0, a failure at slot 0 is
NoEntry while a failure at slot 2 (the subtree delete) is swallowed. -/
theorem erase_batch_and_failure_witness :
    EraseRun [] (.ok ["k"]) 0 (.failed 0 ("w")) = .error .noEntry ∧
    EraseRun [] (.ok ["k"]) 0 (.failed 2 ("w")) = .ok () :=
  ⟨(erase_batch_and_failure [] ["k"] 0 ("w")).2.1,
   (erase_batch_and_failure [] ["k"] 0 ("w")).2.2 2 (by decide)⟩

/-- C7 evidence: the first Close on a never-sessioned client is a no-op,
but after a session has been created, the first Close succeeds and leaves
the closed channel in place, so a second Close closes an already-closed
channel: a Go runtime panic, contradicting the claim that double Close
does not crash. -/
theorem close_double_after_session_panics :
    CloseRun freshSessState = .ok freshSessState ∧
    (getOrCreateSessionIdRun freshSessState (.ok ("sid"))).2 = ⟨"sid", some .opened⟩ ∧
    CloseRun ⟨"sid", some .opened⟩ = .ok ⟨"sid", some .closed⟩ ∧
    CloseRun ⟨"sid", some .closed⟩ = .error ("close of closed channel") :=
  ⟨rfl, rfl, rfl, rfl⟩

/-- C8: detachChild returns the empty string exactly when the path has a
slash at or after the first prefix length (a grandchild); otherwise it
returns the slash-prepended path when the mount prefix length is 0, and
the suffix of the path past the mount prefix length otherwise. -/
theorem detachChild_direct_children (path : List Char) (nPfx nGlobalPfx : Nat)
    (h : nGlobalPfx ≤ path.length) :
    ('/' ∈ path.drop nPfx → detachChild path nPfx nGlobalPfx = .ok []) ∧
    ('/' ∉ path.drop nPfx → nGlobalPfx = 0 →
      detachChild path nPfx nGlobalPfx = .ok ('/' :: path)) ∧
    ('/' ∉ path.drop nPfx → nGlobalPfx ≠ 0 →
      detachChild path nPfx nGlobalPfx = .ok (path.drop nGlobalPfx)) := by
  refine ⟨?_, ?_, ?_⟩
  · intro hm
    rw [detachChild, if_pos ((lastIndexOfChar_ge_iff path '/' nPfx).mpr hm)]
  · intro hm h0
    rw [detachChild, if_neg (fun hc => hm ((lastIndexOfChar_ge_iff path '/' nPfx).mp hc)),
      if_pos h0]
  · intro hm h0
    rw [detachChild, if_neg (fun hc => hm ((lastIndexOfChar_ge_iff path '/' nPfx).mp hc)),
      if_neg h0, if_pos h]

/-- C8 witness: listing children of "m/a" under mount "m" (listing prefix
"m/a/" of length 4, mount length 1), the grandchild path "m/a/b/d" maps to
the empty string while the direct child "m/a/b" maps to the suffix past
the mount, "/a/b". -/
theorem detachChild_direct_children_witness :
    detachChild ['m', '/', 'a', '/', 'b', '/', 'd'] 4 1 = .ok [] ∧
    detachChild ['m', '/', 'a', '/', 'b'] 4 1 = .ok ['/', 'a', '/', 'b'] := by
  refine ⟨(detachChild_direct_children ['m', '/', 'a', '/', 'b', '/', 'd'] 4 1
      (by decide)).1 (by decide), ?_⟩
  have h := (detachChild_direct_children ['m', '/', 'a', '/', 'b'] 4 1
      (by decide)).2.2 (by decide) (by decide)
  simpa using h

/-- C9: whenever Set's batch fails (no transport error, not committed),
Set returns NoEntry whatever the failing slot; over all possible
responses it never returns EntryExists or an Unexpected error. -/
theorem set_failure_always_noentry (p segs : List String) (v : Bytes) :
    (∀ (idx : Nat) (what : String),
      SetRun p (.ok segs) v (.failed idx what) = .error .noEntry) ∧
    (∀ resp : TxnResp, SetRun p (.ok segs) v resp ≠ .error .entryExists) ∧
    (∀ (resp : TxnResp) (w : String) (i : Nat),
      SetRun p (.ok segs) v resp ≠ .error (.unexpected w i)) := by
  refine ⟨fun idx what => rfl, ?_, ?_⟩
  · intro resp
    cases resp with
    | transportErr m => simp [SetRun]
    | committed results =>
      simp only [SetRun, lastModifyIndex]
      cases results.getLast? <;> simp
    | failed i w => simp [SetRun]
  · intro resp w i
    cases resp with
    | transportErr m => simp [SetRun]
    | committed results =>
      simp only [SetRun, lastModifyIndex]
      cases results.getLast? <;> simp
    | failed j ww => simp [SetRun]

/-- C9 witness: a Set batch failing at slot 1 still reports NoEntry, and
the failure is not reported as EntryExists. -/
theorem set_failure_always_noentry_witness :
    SetRun [] (.ok ["k"]) [] (.failed 1 ("w")) = .error .noEntry ∧
    SetRun [] (.ok ["k"]) [] (.failed 1 ("w")) ≠ .error .entryExists :=
  ⟨(set_failure_always_noentry [] ["k"] []).1 1 ("w"),
   (set_failure_always_noentry [] ["k"] []).2.1 (.failed 1 ("w"))⟩

/-- C10: on a well-formed key that is absent, Exists returns version 0,
no watch handle and no error — even when a watch was requested — while
Get reports NoEntry for the same absent key. -/
theorem exists_absent_no_error (p segs : List String) (watch : Bool) :
    ExistsRun p (.ok segs) watch (.ok none) = .ok (0, none) ∧
    GetRun p (.ok segs) watch (.ok none) = .error .noEntry :=
  ⟨rfl, rfl⟩

/-- C6 counterexample: for the Txn with no checks and a single Erase op,
the batch has three primitive slots but the result-kind array has a
single entry, so the result-kind array is not parallel to the batch with
one entry per batch slot. -/
theorem commit_rks_not_one_per_slot :
    (buildTxn [] ("") ⟨[], [⟨.erase, ["a"], [], false⟩]⟩).ops.length = 3 ∧
    (buildTxn [] ("") ⟨[], [⟨.erase, ["a"], [], false⟩]⟩).rks.length = 1 ∧
    (buildTxn [] ("") ⟨[], [⟨.erase, ["a"], [], false⟩]⟩).rks.length ≠
      (buildTxn [] ("") ⟨[], [⟨.erase, ["a"], [], false⟩]⟩).ops.length := by
  refine ⟨rfl, rfl, by decide⟩

/-- C6 as amended: the builder produces one result-kind entry per
result-producing batch slot (every slot except check-not-exists, delete
and delete-subtree, which the source notes produce no results), and a
boundaries array with one entry per user-level item (checks then ops)
recording the last primitive index consumed by that item. -/
theorem commit_builder_metadata (p : List String) (sid : String) (txn : Txn) :
    (buildTxn p sid txn).rks.length
      = ((buildTxn p sid txn).ops.filter (fun o => producesResult o.verb)).length ∧
    (buildTxn p sid txn).boundaries
      = boundarySpec (txn.checks.map (fun _ => 1)
          ++ txn.ops.map (fun op => (userOpPrims p sid op).1.length)) 0 ∧
    (buildTxn p sid txn).boundaries.length = txn.checks.length + txn.ops.length :=
  ⟨(buildTxn_spec p sid txn).2.2, (buildTxn_spec p sid txn).1,
   (buildTxn_spec p sid txn).2.1⟩
